import Mathlib

/-! Verification of the record-streaming filter of `Geant4phspCutter.cc`
(phspCutter).

The program reads an IAEA phase-space file record by record, applies a geometric
acceptance test (projection of the particle position onto a fixed z-plane and a
rectangular bound check), writes accepted records to an output file, counts
records and decode errors, aborts softly when the decode-error budget is
exceeded, and finally rewrites the output header from the accumulated counters.

The embedding below models the floating-point fields with `ℚ` and the IAEA
integer types with `Int`/`Nat`.  The per-iteration body of the reading loop of
`main` becomes `processRecord`, the loop itself `runLoop`, and the whole of
`main` after the setup phase becomes `mainRun`.
-/

namespace PhspCutter

/-- Filter plane constant `Z_PLANE` of `Geant4phspCutter.cc` (100.0f, cm). -/
def Z_PLANE : ℚ := 100

/-- Lower x bound `X_MIN` of the acceptance rectangle. -/
def X_MIN : ℚ := -7

/-- Upper x bound `X_MAX` of the acceptance rectangle. -/
def X_MAX : ℚ := 7

/-- Lower y bound `Y_MIN` of the acceptance rectangle. -/
def Y_MIN : ℚ := -7

/-- Upper y bound `Y_MAX` of the acceptance rectangle. -/
def Y_MAX : ℚ := 7

/-- One decoded particle record, as filled by `iaea_get_particle`: the status
code `n_stat` (the value -1 is the decode-failure sentinel), the particle type,
energy `E`, statistical weight `wt`, position `(x, y, z)`, direction cosines
`(u, v, w)`, and the optional extra float/integer payload. -/
structure PhspRecord where
  n_stat : Int
  partType : Int
  E : ℚ
  wt : ℚ
  x : ℚ
  y : ℚ
  z : ℚ
  u : ℚ
  v : ℚ
  w : ℚ
  extraFloats : List ℚ
  extraInts : List Int
deriving DecidableEq, Repr

/-- The geometry acceptance test of the loop body (lines 126-146 of
`Geant4phspCutter.cc`): only particles with `w > 0` are considered; when
`z < Z_PLANE` the position is projected along the direction onto the plane
with `t = (Z_PLANE - z) / w`, otherwise the raw `(x, y)` is used; the test
point must lie within the rectangle, bounds inclusive. -/
def geometryAccept (r : PhspRecord) : Bool :=
  if 0 < r.w then
    let p : ℚ × ℚ :=
      if r.z < Z_PLANE then
        let t : ℚ := (Z_PLANE - r.z) / r.w
        (r.x + r.u * t, r.y + r.v * t)
      else
        (r.x, r.y)
    decide (X_MIN ≤ p.1) && decide (p.1 ≤ X_MAX) &&
      decide (Y_MIN ≤ p.2) && decide (p.2 ≤ Y_MAX)
  else
    false

/-- A record as passed to `iaea_write_particle`: the ten scalar fields given
explicitly at the call site, plus whatever extra payload the writer stores. -/
structure WrittenRecord where
  n_stat : Int
  partType : Int
  E : ℚ
  wt : ℚ
  x : ℚ
  y : ℚ
  z : ℚ
  u : ℚ
  v : ℚ
  w : ℚ
  extraFloats : List ℚ
  extraInts : List Int
deriving DecidableEq, Repr

/-- Modelled from the spec: the IAEA format library (`iaea_phsp.cpp`) is not
part of this repository, so the behaviour of `iaea_write_particle` is taken
from the external-interface contract: `writeRecord(handle, Record)` stores the
ten scalar fields verbatim and stores extra float/integer payload only up to
the extra-field counts previously set on the handle by `setExtraFieldFlags`
(`iaea_set_extra_numbers`). -/
def writeRecord (ef ei : Nat) (r : PhspRecord) : WrittenRecord :=
  { n_stat := r.n_stat
    partType := r.partType
    E := r.E
    wt := r.wt
    x := r.x
    y := r.y
    z := r.z
    u := r.u
    v := r.v
    w := r.w
    extraFloats := r.extraFloats.take ef
    extraInts := r.extraInts.take ei }

/-- The mutable state of the reading loop of `main`: the loop index `attempts`
(one per call of `iaea_get_particle`), the counter `count` of processed
records, the accepted-record counters (`acceptedHistories` and
`acceptedParticles` move in lockstep, kept as one field `accepted`), the
decode-error counter `errorCount`, the sequence of records written so far, and
whether the error budget forced a `break`. -/
structure RunState where
  attempts : Nat
  count : Nat
  accepted : Nat
  errorCount : Nat
  output : List WrittenRecord
  aborted : Bool
deriving DecidableEq, Repr

/-- The state at loop entry: all counters zero, nothing written. -/
def initState : RunState :=
  { attempts := 0
    count := 0
    accepted := 0
    errorCount := 0
    output := []
    aborted := false }

/-- One iteration of the reading loop (lines 112-151): read a record; on the
decode-failure sentinel increment `errorCount` and set the abort flag when it
exceeds the threshold, skipping the rest of the body (`continue`); otherwise
run the geometry test, write the record on acceptance, and increment `count`. -/
def processRecord (threshold ef ei : Nat) (s : RunState) (r : PhspRecord) :
    RunState :=
  let s0 := { s with attempts := s.attempts + 1 }
  if r.n_stat = -1 then
    let e := s0.errorCount + 1
    if threshold < e then
      { s0 with errorCount := e, aborted := true }
    else
      { s0 with errorCount := e }
  else if geometryAccept r then
    { s0 with
      count := s0.count + 1
      accepted := s0.accepted + 1
      output := s0.output ++ [writeRecord ef ei r] }
  else
    { s0 with count := s0.count + 1 }

/-- The reading loop: process the records the reader yields in order, stopping
early as soon as an iteration sets the abort flag (the `break` on error-budget
overflow). -/
def runLoop (threshold ef ei : Nat) : RunState → List PhspRecord → RunState
  | s, [] => s
  | s, r :: rs =>
    let s1 := processRecord threshold ef ei s r
    if s1.aborted then s1 else runLoop threshold ef ei s1 rs

/-- The iteration bound of the loop, computed from the header record count
(line 108): `expectedRecords = (expected > 0) ? expected - 1 : expected`. -/
def iterationBound (expected : Int) : Int :=
  if 0 < expected then expected - 1 else expected

/-- The observable outcome of `main` after the setup phase: the extra-field
counts written to the output header before the loop (`iaea_set_extra_numbers`
with zeros), the final loop state, the original-particle count passed to
`iaea_set_total_original_particles`, and the fact that `iaea_update_header`
runs (it is reached on every path out of the loop, normal or aborted). -/
structure MainResult where
  extraFloatCount : Nat
  extraIntCount : Nat
  stats : RunState
  originalParticlesSet : Int
  headerUpdated : Bool
deriving DecidableEq, Repr

/-- The record-processing phase of `main` (lines 81-160): set the output
header's extra counts to zero, run the loop over at most `iterationBound
expected` records of the input stream, then finalize the header from the
accumulated counters. -/
def mainRun (threshold : Nat) (expected : Int) (inputs : List PhspRecord) :
    MainResult :=
  let s := runLoop threshold 0 0 initState
    (inputs.take (iterationBound expected).toNat)
  { extraFloatCount := 0
    extraIntCount := 0
    stats := s
    originalParticlesSet := (s.accepted : Int)
    headerUpdated := true }

/-- The test point of the geometry predicate as the specification words it:
when `z` is at or beyond the plane, the raw `(x, y)`; otherwise the position
projected onto the plane along the direction. -/
def specTestPoint (r : PhspRecord) : ℚ × ℚ :=
  if Z_PLANE ≤ r.z then (r.x, r.y)
  else
    let t : ℚ := (Z_PLANE - r.z) / r.w
    (r.x + r.u * t, r.y + r.v * t)

/-- The acceptance condition as the specification words it: `w` strictly
positive and the test point inside the rectangle, bounds inclusive. -/
def specAccept (r : PhspRecord) : Prop :=
  0 < r.w ∧ X_MIN ≤ (specTestPoint r).1 ∧ (specTestPoint r).1 ≤ X_MAX ∧
    Y_MIN ≤ (specTestPoint r).2 ∧ (specTestPoint r).2 ≤ Y_MAX

/-- A record accepted by the filter: `z = 50 < Z_PLANE`, `w = 1`, `u = 1/10`,
so the projected point is `(5, 0)`, inside the rectangle (spec scenario). -/
def recAccepted1 : PhspRecord :=
  { n_stat := 1
    partType := 1
    E := 1
    wt := 1
    x := 0
    y := 0
    z := 50
    u := 1/10
    v := 0
    w := 1
    extraFloats := [2, 3]
    extraInts := [4] }

/-- A decode failure: `n_stat` is the sentinel -1. -/
def recBad : PhspRecord :=
  { n_stat := -1
    partType := 0
    E := 0
    wt := 0
    x := 0
    y := 0
    z := 0
    u := 0
    v := 0
    w := 0
    extraFloats := []
    extraInts := [] }

/-- A second accepted record, distinct from the first: projects to `(6, 0)`. -/
def recAccepted2 : PhspRecord :=
  { n_stat := 1
    partType := 2
    E := 2
    wt := 1
    x := 1
    y := 0
    z := 50
    u := 1/10
    v := 0
    w := 1
    extraFloats := [5]
    extraInts := [6, 7] }

/-- A rejected record: `u = 1` projects to `newX = 50`, outside the rectangle
(spec scenario). -/
def recRejected1 : PhspRecord :=
  { n_stat := 1
    partType := 1
    E := 1
    wt := 1
    x := 0
    y := 0
    z := 50
    u := 1
    v := 0
    w := 1
    extraFloats := []
    extraInts := [] }

/-- A rejected record: `w = -1` is not strictly positive. -/
def recRejected2 : PhspRecord :=
  { n_stat := 1
    partType := 1
    E := 1
    wt := 1
    x := 0
    y := 0
    z := 50
    u := 0
    v := 0
    w := -1
    extraFloats := []
    extraInts := [] }

/-! ### Step lemmas for the loop body -/

/-- Sanity check on the acceptance test at the spec's concrete scenarios:
`recAccepted1` projects to `(5, 0)` and is accepted, `recRejected1` projects
to `(50, 0)` and is rejected, `recRejected2` has `w ≤ 0` and is rejected. -/
lemma geometryAccept_samples :
    geometryAccept recAccepted1 = true ∧ geometryAccept recAccepted2 = true ∧
    geometryAccept recRejected1 = false ∧ geometryAccept recRejected2 = false := by
  refine ⟨?_, ?_, ?_, ?_⟩ <;>
    norm_num [geometryAccept, recAccepted1, recAccepted2, recRejected1,
      recRejected2, Z_PLANE, X_MIN, X_MAX, Y_MIN, Y_MAX]

lemma processRecord_bad_within (threshold ef ei : Nat) (s : RunState)
    (r : PhspRecord) (hr : r.n_stat = -1) (h : s.errorCount + 1 ≤ threshold) :
    processRecord threshold ef ei s r =
      { s with attempts := s.attempts + 1, errorCount := s.errorCount + 1 } := by
  simp [processRecord, hr, Nat.not_lt.mpr h]

lemma processRecord_bad_over (threshold ef ei : Nat) (s : RunState)
    (r : PhspRecord) (hr : r.n_stat = -1) (h : threshold < s.errorCount + 1) :
    processRecord threshold ef ei s r =
      { s with
        attempts := s.attempts + 1
        errorCount := s.errorCount + 1
        aborted := true } := by
  simp [processRecord, hr, h]

lemma processRecord_good_accept (threshold ef ei : Nat) (s : RunState)
    (r : PhspRecord) (hr : ¬ r.n_stat = -1) (ha : geometryAccept r = true) :
    processRecord threshold ef ei s r =
      { s with
        attempts := s.attempts + 1
        count := s.count + 1
        accepted := s.accepted + 1
        output := s.output ++ [writeRecord ef ei r] } := by
  simp [processRecord, hr, ha]

lemma processRecord_good_reject (threshold ef ei : Nat) (s : RunState)
    (r : PhspRecord) (hr : ¬ r.n_stat = -1) (ha : geometryAccept r = false) :
    processRecord threshold ef ei s r =
      { s with attempts := s.attempts + 1, count := s.count + 1 } := by
  simp [processRecord, hr, ha]

/-- The executable acceptance test of the code agrees with the acceptance
condition as the specification words it. -/
lemma geometryAccept_iff (r : PhspRecord) :
    geometryAccept r = true ↔ specAccept r := by
  unfold geometryAccept specAccept specTestPoint
  by_cases hw : 0 < r.w
  · by_cases hz : r.z < Z_PLANE
    · rw [if_pos hw, if_pos hz, if_neg (not_le.mpr hz)]
      simp [hw, and_assoc]
    · rw [if_pos hw, if_neg hz, if_pos (not_lt.mp hz)]
      simp [hw, and_assoc]
  · rw [if_neg hw]
    simp [hw]

/-! ### Loop composition and invariance lemmas -/

lemma runLoop_nil (threshold ef ei : Nat) (s : RunState) :
    runLoop threshold ef ei s [] = s := rfl

lemma runLoop_cons (threshold ef ei : Nat) (s : RunState) (r : PhspRecord)
    (rs : List PhspRecord) :
    runLoop threshold ef ei s (r :: rs) =
      (if (processRecord threshold ef ei s r).aborted then
        processRecord threshold ef ei s r
      else runLoop threshold ef ei (processRecord threshold ef ei s r) rs) :=
  rfl

lemma runLoop_invariant (threshold ef ei : Nat) (P : RunState → Prop)
    (hstep : ∀ s r, P s → P (processRecord threshold ef ei s r)) :
    ∀ (l : List PhspRecord) (s : RunState), P s →
      P (runLoop threshold ef ei s l) := by
  intro l
  induction l with
  | nil => intro s hs; exact hs
  | cons r rs ih =>
    intro s hs
    rw [runLoop_cons]
    by_cases hab : (processRecord threshold ef ei s r).aborted
    · rw [if_pos hab]; exact hstep s r hs
    · rw [if_neg hab]; exact ih _ (hstep s r hs)

lemma runLoop_append (threshold ef ei : Nat) :
    ∀ (l1 l2 : List PhspRecord) (s : RunState), s.aborted = false →
      runLoop threshold ef ei s (l1 ++ l2) =
        (if (runLoop threshold ef ei s l1).aborted then
          runLoop threshold ef ei s l1
        else runLoop threshold ef ei (runLoop threshold ef ei s l1) l2) := by
  intro l1
  induction l1 with
  | nil =>
    intro l2 s hs
    simp [runLoop_nil, hs]
  | cons r rs ih =>
    intro l2 s hs
    rw [List.cons_append, runLoop_cons, runLoop_cons]
    by_cases hab : (processRecord threshold ef ei s r).aborted
    · rw [if_pos hab, if_pos hab, if_pos hab]
    · rw [if_neg hab, if_neg hab]
      exact ih l2 _ (Bool.not_eq_true _ ▸ hab)

/-- Processing a stream of successfully decoded records never touches the
error counter or the abort flag, and makes one read attempt per record. -/
lemma runLoop_good_list (threshold ef ei : Nat) :
    ∀ (l : List PhspRecord) (s : RunState), s.aborted = false →
      (∀ r ∈ l, ¬ r.n_stat = -1) →
      (runLoop threshold ef ei s l).aborted = false ∧
      (runLoop threshold ef ei s l).errorCount = s.errorCount ∧
      (runLoop threshold ef ei s l).attempts = s.attempts + l.length := by
  intro l
  induction l with
  | nil => intro s hs _; simp [runLoop_nil, hs]
  | cons r rs ih =>
    intro s hs hgood
    have hr : ¬ r.n_stat = -1 := hgood r (List.mem_cons_self r rs)
    have hrest : ∀ q ∈ rs, ¬ q.n_stat = -1 := fun q hq =>
      hgood q (List.mem_cons_of_mem r hq)
    by_cases ha : geometryAccept r = true
    · rw [runLoop_cons, processRecord_good_accept threshold ef ei s r hr ha]
      simp only [hs]
      rw [if_neg (by simp)]
      have := ih { s with
        attempts := s.attempts + 1
        count := s.count + 1
        accepted := s.accepted + 1
        output := s.output ++ [writeRecord ef ei r] } (by simp [hs]) hrest
      simpa [hs, Nat.add_assoc, Nat.add_comm, Nat.add_left_comm] using this
    · rw [runLoop_cons, processRecord_good_reject threshold ef ei s r hr
        (Bool.not_eq_true _ ▸ ha)]
      simp only [hs]
      rw [if_neg (by simp)]
      have := ih { s with attempts := s.attempts + 1, count := s.count + 1 }
        (by simp [hs]) hrest
      simpa [hs, Nat.add_assoc, Nat.add_comm, Nat.add_left_comm] using this

/-- Running into `k` consecutive decode failures that exhaust the error budget
exactly (`errorCount + k = threshold + 1`) aborts the loop at the `k`-th
failure: the tail of the stream is never processed and only `attempts` and
`errorCount` move. -/
lemma runLoop_budget_abort (threshold ef ei : Nat) (bad : PhspRecord)
    (hbad : bad.n_stat = -1) :
    ∀ (k : Nat) (s : RunState) (rest : List PhspRecord), s.aborted = false →
      s.errorCount + k = threshold + 1 → 1 ≤ k →
      runLoop threshold ef ei s (List.replicate k bad ++ rest) =
        { s with
          attempts := s.attempts + k
          errorCount := threshold + 1
          aborted := true } := by
  intro k
  induction k with
  | zero => intro s rest _ _ hk; exact absurd hk (by simp)
  | succ k ih =>
    intro s rest hs hsum _
    rw [List.replicate_succ, List.cons_append, runLoop_cons]
    rcases Nat.eq_zero_or_pos k with hk0 | hkpos
    · subst hk0
      have hover : threshold < s.errorCount + 1 := by omega
      rw [processRecord_bad_over threshold ef ei s bad hbad hover]
      rw [if_pos (by simp)]
      have he : s.errorCount + 1 = threshold + 1 := by omega
      simp [he]
    · have hwithin : s.errorCount + 1 ≤ threshold := by omega
      rw [processRecord_bad_within threshold ef ei s bad hbad hwithin]
      rw [if_neg (by simp [hs])]
      have := ih { s with attempts := s.attempts + 1, errorCount := s.errorCount + 1 }
        rest (by simp [hs]) (by simp; omega) hkpos
      simpa [Nat.add_assoc, Nat.add_comm, Nat.add_left_comm] using this

/-! ### Claim theorems -/

/-- C1: for every successfully decoded record, the loop body writes the record
to the output exactly when the specified acceptance condition holds: `w` must
be strictly positive (a record with `w ≤ 0` is rejected regardless of
position); the test point is the raw `(x, y)` when `z ≥ Z_PLANE` and the
projection `(x + u*t, y + v*t)` with `t = (Z_PLANE - z)/w` when `z < Z_PLANE`;
and the test point must lie in `[X_MIN, X_MAX] × [Y_MIN, Y_MAX]`, both bounds
inclusive. -/
theorem C1_geometry_acceptance (threshold ef ei : Nat) (s : RunState)
    (r : PhspRecord) (hdec : ¬ r.n_stat = -1) :
    ((processRecord threshold ef ei s r).output
        = s.output ++ [writeRecord ef ei r] ↔ specAccept r) ∧
    (¬ specAccept r → (processRecord threshold ef ei s r).output = s.output) ∧
    (r.w ≤ 0 → (processRecord threshold ef ei s r).output = s.output) := by
  have hne : s.output ≠ s.output ++ [writeRecord ef ei r] := by
    intro h
    have := congrArg List.length h
    simp at this
  by_cases ha : geometryAccept r = true
  · rw [processRecord_good_accept threshold ef ei s r hdec ha]
    have hacc := (geometryAccept_iff r).mp ha
    exact ⟨⟨fun _ => hacc, fun _ => rfl⟩, fun hn => absurd hacc hn,
      fun hw => absurd hacc.1 (not_lt.mpr hw)⟩
  · rw [processRecord_good_reject threshold ef ei s r hdec
      (Bool.not_eq_true _ ▸ ha)]
    have hnacc : ¬ specAccept r := fun hsp => ha ((geometryAccept_iff r).mpr hsp)
    exact ⟨⟨fun h => absurd h hne, fun hsp => absurd hsp hnacc⟩,
      fun _ => rfl, fun _ => rfl⟩

/-- Witness for C1: the loop body writes the concrete record `recAccepted1`
(projected test point `(5, 0)`, inside the rectangle). -/
theorem C1_geometry_acceptance_witness :
    (processRecord 10 0 0 initState recAccepted1).output =
      initState.output ++ [writeRecord 0 0 recAccepted1] :=
  (C1_geometry_acceptance 10 0 0 initState recAccepted1
      (by norm_num [recAccepted1])).1.mpr
    (by norm_num [specAccept, specTestPoint, recAccepted1,
      Z_PLANE, X_MIN, X_MAX, Y_MIN, Y_MAX])

/-- C3: for the five-record scenario (records 1 and 3 accepted, record 2 a
decode failure, records 4 and 5 rejected, threshold 10) the output holds
exactly records 1 and 3 in order and the final statistics are
`recordsSeen = 4`, `recordsAccepted = 2`, `decodeErrors = 1`.  The header
count 6 makes the loop read exactly these 5 records. -/
theorem C3_five_record_scenario :
    (mainRun 10 6 [recAccepted1, recBad, recAccepted2, recRejected1,
        recRejected2]).stats.output =
      [writeRecord 0 0 recAccepted1, writeRecord 0 0 recAccepted2] ∧
    (mainRun 10 6 [recAccepted1, recBad, recAccepted2, recRejected1,
        recRejected2]).stats.count = 4 ∧
    (mainRun 10 6 [recAccepted1, recBad, recAccepted2, recRejected1,
        recRejected2]).stats.accepted = 2 ∧
    (mainRun 10 6 [recAccepted1, recBad, recAccepted2, recRejected1,
        recRejected2]).stats.errorCount = 1 := by
  norm_num [mainRun, iterationBound, runLoop, processRecord, initState,
    geometryAccept, writeRecord, recAccepted1, recBad, recAccepted2,
    recRejected1, recRejected2, Z_PLANE, X_MIN, X_MAX, Y_MIN, Y_MAX]

/-- C2: with error threshold `T`, a stream that after a cleanly decoded prefix
holds `T + 1` consecutive decode failures makes the run stop at the last of
those failures: the rest of the stream is never processed, the final
statistics are exactly those the loop accumulates on the prefix and the
failures alone, and the stop is soft — the header is still committed and its
original-particle count is still set from the partial accepted counter. -/
theorem C2_error_budget_soft_stop (T : Nat) (pre rest : List PhspRecord)
    (bad : PhspRecord) (hbad : bad.n_stat = -1)
    (hpre : ∀ r ∈ pre, ¬ r.n_stat = -1) (expected : Int)
    (hexp : pre.length + (T + 1) ≤ (iterationBound expected).toNat) :
    (mainRun T expected
      (pre ++ (List.replicate (T + 1) bad ++ rest))).stats.aborted = true ∧
    (mainRun T expected (pre ++ (List.replicate (T + 1) bad ++ rest))).stats =
      runLoop T 0 0 initState (pre ++ List.replicate (T + 1) bad) ∧
    (mainRun T expected
      (pre ++ (List.replicate (T + 1) bad ++ rest))).headerUpdated = true ∧
    (mainRun T expected
        (pre ++ (List.replicate (T + 1) bad ++ rest))).originalParticlesSet =
      ((mainRun T expected
        (pre ++ (List.replicate (T + 1) bad ++ rest))).stats.accepted : Int) := by
  have hinit : initState.aborted = false := rfl
  have hlenrep : (List.replicate (T + 1) bad).length = T + 1 :=
    List.length_replicate _ _
  have htake : (pre ++ (List.replicate (T + 1) bad ++ rest)).take
        (iterationBound expected).toNat =
      pre ++ (List.replicate (T + 1) bad ++
        rest.take ((iterationBound expected).toNat - pre.length - (T + 1))) := by
    rw [List.take_append_eq_append_take,
      List.take_of_length_le (le_trans (Nat.le_add_right _ _) hexp),
      List.take_append_eq_append_take,
      List.take_of_length_le (by rw [hlenrep]; omega)]
    rw [hlenrep]
  have hgood := runLoop_good_list T 0 0 pre initState hinit hpre
  have habort := runLoop_budget_abort T 0 0 bad hbad (T + 1)
    (runLoop T 0 0 initState pre)
    (rest.take ((iterationBound expected).toNat - pre.length - (T + 1)))
    hgood.1 (by rw [hgood.2.1]; simp [initState]) (by omega)
  have habort0 := runLoop_budget_abort T 0 0 bad hbad (T + 1)
    (runLoop T 0 0 initState pre) [] hgood.1
    (by rw [hgood.2.1]; simp [initState]) (by omega)
  have hsplit := runLoop_append T 0 0 pre
    (List.replicate (T + 1) bad ++
      rest.take ((iterationBound expected).toNat - pre.length - (T + 1)))
    initState hinit
  have hsplit0 := runLoop_append T 0 0 pre (List.replicate (T + 1) bad)
    initState hinit
  have hstats : (mainRun T expected
      (pre ++ (List.replicate (T + 1) bad ++ rest))).stats =
      { runLoop T 0 0 initState pre with
        attempts := (runLoop T 0 0 initState pre).attempts + (T + 1)
        errorCount := T + 1
        aborted := true } := by
    show runLoop T 0 0 initState
      ((pre ++ (List.replicate (T + 1) bad ++ rest)).take
        (iterationBound expected).toNat) = _
    rw [htake, hsplit, if_neg (by rw [hgood.1]; simp), habort]
  have hstats0 : runLoop T 0 0 initState (pre ++ List.replicate (T + 1) bad) =
      { runLoop T 0 0 initState pre with
        attempts := (runLoop T 0 0 initState pre).attempts + (T + 1)
        errorCount := T + 1
        aborted := true } := by
    rw [hsplit0, if_neg (by rw [hgood.1]; simp)]
    have : List.replicate (T + 1) bad =
        List.replicate (T + 1) bad ++ ([] : List PhspRecord) := by simp
    rw [this, habort0]
  refine ⟨by rw [hstats], by rw [hstats, hstats0], rfl, rfl⟩

/-- Witness for C2: threshold 1, a good one-record prefix, two consecutive
decode failures and one further record that is never processed. -/
theorem C2_error_budget_soft_stop_witness :
    (mainRun 1 10 ([recAccepted1] ++
      (List.replicate 2 recBad ++ [recAccepted2]))).stats.aborted = true ∧
    (mainRun 1 10 ([recAccepted1] ++
        (List.replicate 2 recBad ++ [recAccepted2]))).stats =
      runLoop 1 0 0 initState ([recAccepted1] ++ List.replicate 2 recBad) ∧
    (mainRun 1 10 ([recAccepted1] ++
      (List.replicate 2 recBad ++ [recAccepted2]))).headerUpdated = true ∧
    (mainRun 1 10 ([recAccepted1] ++
        (List.replicate 2 recBad ++ [recAccepted2]))).originalParticlesSet =
      ((mainRun 1 10 ([recAccepted1] ++
        (List.replicate 2 recBad ++ [recAccepted2]))).stats.accepted : Int) :=
  C2_error_budget_soft_stop 1 [recAccepted1] [recAccepted2] recBad rfl
    (by intro r hr; simp at hr; subst hr; norm_num [recAccepted1]) 10
    (by norm_num [iterationBound])

/-- Counterexample to C4 as stated: one decode failure with threshold 1 makes
one decode attempt (the loop body runs once), yet the processed-record counter
`count` stays 0 — the failure path `continue`s before `count++`, so
`recordsSeen` does not count failed decode attempts. -/
theorem C4_counterexample :
    ¬ ((mainRun 1 2 [recBad]).stats.count =
        (mainRun 1 2 [recBad]).stats.attempts) := by
  norm_num [mainRun, iterationBound, runLoop, processRecord, initState, recBad]

/-- C4 (amended): after any run, `recordsSeen` counts exactly the successful
decodes: each decode attempt bumps either `recordsSeen` or `decodeErrors`, so
`recordsSeen + decodeErrors` equals the total number of decode attempts. -/
theorem C4_seen_plus_errors_is_attempts (threshold : Nat) (expected : Int)
    (inputs : List PhspRecord) :
    (mainRun threshold expected inputs).stats.count +
        (mainRun threshold expected inputs).stats.errorCount =
      (mainRun threshold expected inputs).stats.attempts := by
  have hstep : ∀ (s : RunState) (r : PhspRecord),
      s.count + s.errorCount = s.attempts →
      (processRecord threshold 0 0 s r).count +
          (processRecord threshold 0 0 s r).errorCount =
        (processRecord threshold 0 0 s r).attempts := by
    intro s r h
    by_cases hr : r.n_stat = -1
    · rcases le_or_lt (s.errorCount + 1) threshold with hle | hlt
      · rw [processRecord_bad_within _ _ _ _ _ hr hle]; simp; omega
      · rw [processRecord_bad_over _ _ _ _ _ hr hlt]; simp; omega
    · by_cases ha : geometryAccept r = true
      · rw [processRecord_good_accept _ _ _ _ _ hr ha]; simp; omega
      · rw [processRecord_good_reject _ _ _ _ _ hr (Bool.not_eq_true _ ▸ ha)]
        simp; omega
  exact runLoop_invariant threshold 0 0
    (fun s => s.count + s.errorCount = s.attempts) hstep
    (inputs.take (iterationBound expected).toNat) initState (by simp [initState])

/-- C5: for a positive header count the loop bound is exactly one less than
the header's count, the run makes exactly that many read attempts when the
reader can supply them, and stopping one record short of the header's claim is
not an error — the run ends without the abort flag. -/
theorem C5_iteration_bound (threshold : Nat) (expected : Int)
    (hpos : 0 < expected) (inputs : List PhspRecord)
    (hlen : (expected - 1).toNat ≤ inputs.length)
    (hgood : ∀ r ∈ inputs.take (expected - 1).toNat, ¬ r.n_stat = -1) :
    iterationBound expected = expected - 1 ∧
    (mainRun threshold expected inputs).stats.attempts = (expected - 1).toNat ∧
    (mainRun threshold expected inputs).stats.aborted = false := by
  have hbound : iterationBound expected = expected - 1 := if_pos hpos
  have hlen2 : (inputs.take (expected - 1).toNat).length = (expected - 1).toNat := by
    rw [List.length_take]; omega
  have h := runLoop_good_list threshold 0 0 (inputs.take (expected - 1).toNat)
    initState rfl hgood
  refine ⟨hbound, ?_, ?_⟩
  · show (runLoop threshold 0 0 initState
      (inputs.take (iterationBound expected).toNat)).attempts = _
    rw [hbound, h.2.2, hlen2]
    simp [initState]
  · show (runLoop threshold 0 0 initState
      (inputs.take (iterationBound expected).toNat)).aborted = false
    rw [hbound]
    exact h.1

/-- Witness for C5: header count 3, a reader with the 2 readable records the
loop asks for; both decode, the run makes 2 attempts and does not abort. -/
theorem C5_iteration_bound_witness :
    iterationBound 3 = 3 - 1 ∧
    (mainRun 7 3 [recAccepted1, recRejected1]).stats.attempts =
      ((3 : Int) - 1).toNat ∧
    (mainRun 7 3 [recAccepted1, recRejected1]).stats.aborted = false :=
  C5_iteration_bound 7 3 (by norm_num) [recAccepted1, recRejected1]
    (by norm_num)
    (by intro r hr
        simp at hr
        rcases hr with h | h <;> subst h <;> norm_num [recAccepted1, recRejected1])

/-- C6: an accepted record is forwarded with every scalar field exactly as it
was read: status code, particle type, energy, weight, the full position and
the full direction; in particular the written `x` and `y` are the original
position, not the projected test point. -/
theorem C6_verbatim_forwarding (threshold ef ei : Nat) (s : RunState)
    (r : PhspRecord) (hdec : ¬ r.n_stat = -1)
    (hacc : geometryAccept r = true) :
    (processRecord threshold ef ei s r).output
        = s.output ++ [writeRecord ef ei r] ∧
    (writeRecord ef ei r).n_stat = r.n_stat ∧
    (writeRecord ef ei r).partType = r.partType ∧
    (writeRecord ef ei r).E = r.E ∧
    (writeRecord ef ei r).wt = r.wt ∧
    (writeRecord ef ei r).x = r.x ∧
    (writeRecord ef ei r).y = r.y ∧
    (writeRecord ef ei r).z = r.z ∧
    (writeRecord ef ei r).u = r.u ∧
    (writeRecord ef ei r).v = r.v ∧
    (writeRecord ef ei r).w = r.w := by
  rw [processRecord_good_accept threshold ef ei s r hdec hacc]
  exact ⟨rfl, rfl, rfl, rfl, rfl, rfl, rfl, rfl, rfl, rfl, rfl⟩

/-- Witness for C6: the concrete accepted record `recAccepted2` is forwarded
verbatim. -/
theorem C6_verbatim_forwarding_witness :
    (processRecord 10 0 0 initState recAccepted2).output
        = initState.output ++ [writeRecord 0 0 recAccepted2] ∧
    (writeRecord 0 0 recAccepted2).n_stat = recAccepted2.n_stat ∧
    (writeRecord 0 0 recAccepted2).partType = recAccepted2.partType ∧
    (writeRecord 0 0 recAccepted2).E = recAccepted2.E ∧
    (writeRecord 0 0 recAccepted2).wt = recAccepted2.wt ∧
    (writeRecord 0 0 recAccepted2).x = recAccepted2.x ∧
    (writeRecord 0 0 recAccepted2).y = recAccepted2.y ∧
    (writeRecord 0 0 recAccepted2).z = recAccepted2.z ∧
    (writeRecord 0 0 recAccepted2).u = recAccepted2.u ∧
    (writeRecord 0 0 recAccepted2).v = recAccepted2.v ∧
    (writeRecord 0 0 recAccepted2).w = recAccepted2.w :=
  C6_verbatim_forwarding 10 0 0 initState recAccepted2
    (by norm_num [recAccepted2])
    (by norm_num [geometryAccept, recAccepted2, Z_PLANE, X_MIN, X_MAX,
      Y_MIN, Y_MAX])

/-- C7: the two counters start the pass at zero, no loop iteration ever
decreases either of them, and after any run — aborted or not —
`recordsAccepted ≤ recordsSeen`. -/
theorem C7_accepted_le_seen (threshold : Nat) (expected : Int)
    (inputs : List PhspRecord) :
    initState.accepted = 0 ∧ initState.count = 0 ∧
    (∀ (ef ei : Nat) (s : RunState) (r : PhspRecord),
      s.count ≤ (processRecord threshold ef ei s r).count ∧
      s.accepted ≤ (processRecord threshold ef ei s r).accepted) ∧
    (mainRun threshold expected inputs).stats.accepted ≤
      (mainRun threshold expected inputs).stats.count := by
  have hmono : ∀ (ef ei : Nat) (s : RunState) (r : PhspRecord),
      s.count ≤ (processRecord threshold ef ei s r).count ∧
      s.accepted ≤ (processRecord threshold ef ei s r).accepted := by
    intro ef ei s r
    by_cases hr : r.n_stat = -1
    · rcases le_or_lt (s.errorCount + 1) threshold with hle | hlt
      · rw [processRecord_bad_within _ _ _ _ _ hr hle]
        exact ⟨le_refl _, le_refl _⟩
      · rw [processRecord_bad_over _ _ _ _ _ hr hlt]
        exact ⟨le_refl _, le_refl _⟩
    · by_cases ha : geometryAccept r = true
      · rw [processRecord_good_accept _ _ _ _ _ hr ha]
        exact ⟨Nat.le_succ _, Nat.le_succ _⟩
      · rw [processRecord_good_reject _ _ _ _ _ hr (Bool.not_eq_true _ ▸ ha)]
        exact ⟨Nat.le_succ _, le_refl _⟩
  refine ⟨rfl, rfl, hmono, ?_⟩
  have hstep : ∀ (s : RunState) (r : PhspRecord), s.accepted ≤ s.count →
      (processRecord threshold 0 0 s r).accepted ≤
        (processRecord threshold 0 0 s r).count := by
    intro s r h
    by_cases hr : r.n_stat = -1
    · rcases le_or_lt (s.errorCount + 1) threshold with hle | hlt
      · rw [processRecord_bad_within _ _ _ _ _ hr hle]; simpa using h
      · rw [processRecord_bad_over _ _ _ _ _ hr hlt]; simpa using h
    · by_cases ha : geometryAccept r = true
      · rw [processRecord_good_accept _ _ _ _ _ hr ha]; simpa using h
      · rw [processRecord_good_reject _ _ _ _ _ hr (Bool.not_eq_true _ ▸ ha)]
        simp
        omega
  exact runLoop_invariant threshold 0 0 (fun s => s.accepted ≤ s.count) hstep
    (inputs.take (iterationBound expected).toNat) initState (by simp [initState])

/-- C8: at finalization the output header's original-particle count is set to
exactly the accepted-record counter, and that counter is the number of records
actually written to the output stream. -/
theorem C8_header_original_count (threshold : Nat) (expected : Int)
    (inputs : List PhspRecord) :
    (mainRun threshold expected inputs).originalParticlesSet =
      ((mainRun threshold expected inputs).stats.accepted : Int) ∧
    (mainRun threshold expected inputs).stats.accepted =
      (mainRun threshold expected inputs).stats.output.length := by
  refine ⟨rfl, ?_⟩
  have hstep : ∀ (s : RunState) (r : PhspRecord),
      s.accepted = s.output.length →
      (processRecord threshold 0 0 s r).accepted =
        (processRecord threshold 0 0 s r).output.length := by
    intro s r h
    by_cases hr : r.n_stat = -1
    · rcases le_or_lt (s.errorCount + 1) threshold with hle | hlt
      · rw [processRecord_bad_within _ _ _ _ _ hr hle]; simpa using h
      · rw [processRecord_bad_over _ _ _ _ _ hr hlt]; simpa using h
    · by_cases ha : geometryAccept r = true
      · rw [processRecord_good_accept _ _ _ _ _ hr ha]; simp [h]
      · rw [processRecord_good_reject _ _ _ _ _ hr (Bool.not_eq_true _ ▸ ha)]
        simpa using h
  exact runLoop_invariant threshold 0 0 (fun s => s.accepted = s.output.length)
    hstep (inputs.take (iterationBound expected).toNat) initState
    (by simp [initState])

/-- C9: the output header's extra-field counts are zeroed before the loop
writes anything, and consequently no extra float or integer payload read from
the input appears in any record of the output stream. -/
theorem C9_no_extra_payload (threshold : Nat) (expected : Int)
    (inputs : List PhspRecord) :
    (mainRun threshold expected inputs).extraFloatCount = 0 ∧
    (mainRun threshold expected inputs).extraIntCount = 0 ∧
    ∀ wr ∈ (mainRun threshold expected inputs).stats.output,
      wr.extraFloats = [] ∧ wr.extraInts = [] := by
  refine ⟨rfl, rfl, ?_⟩
  have hstep : ∀ (s : RunState) (r : PhspRecord),
      (∀ wr ∈ s.output, wr.extraFloats = [] ∧ wr.extraInts = []) →
      ∀ wr ∈ (processRecord threshold 0 0 s r).output,
        wr.extraFloats = [] ∧ wr.extraInts = [] := by
    intro s r h
    by_cases hr : r.n_stat = -1
    · rcases le_or_lt (s.errorCount + 1) threshold with hle | hlt
      · rw [processRecord_bad_within _ _ _ _ _ hr hle]; simpa using h
      · rw [processRecord_bad_over _ _ _ _ _ hr hlt]; simpa using h
    · by_cases ha : geometryAccept r = true
      · rw [processRecord_good_accept _ _ _ _ _ hr ha]
        intro wr hwr
        simp only [List.mem_append, List.mem_singleton] at hwr
        rcases hwr with hmem | heq
        · exact h wr hmem
        · subst heq
          exact ⟨by simp [writeRecord], by simp [writeRecord]⟩
      · rw [processRecord_good_reject _ _ _ _ _ hr (Bool.not_eq_true _ ▸ ha)]
        simpa using h
  exact runLoop_invariant threshold 0 0
    (fun s => ∀ wr ∈ s.output, wr.extraFloats = [] ∧ wr.extraInts = []) hstep
    (inputs.take (iterationBound expected).toNat) initState
    (by simp [initState])

/-- C10: when the header's record count is at most 1, the loop bound is 0 or
negative, so the loop runs zero iterations: no read attempt is made, all
counters stay zero, nothing is written, and the header's original-particle
count is set to 0. -/
theorem C10_trivial_run (threshold : Nat) (expected : Int)
    (inputs : List PhspRecord) (h : expected ≤ 1) :
    (mainRun threshold expected inputs).stats.attempts = 0 ∧
    (mainRun threshold expected inputs).stats.count = 0 ∧
    (mainRun threshold expected inputs).stats.accepted = 0 ∧
    (mainRun threshold expected inputs).stats.errorCount = 0 ∧
    (mainRun threshold expected inputs).stats.output = ([] : List WrittenRecord) ∧
    (mainRun threshold expected inputs).originalParticlesSet = 0 := by
  have hb : (iterationBound expected).toNat = 0 := by
    unfold iterationBound
    split <;> omega
  simp [mainRun, hb, runLoop, initState]

/-- Witness for C10: header count 1 (loop bound 0); even with a record
available in the stream nothing is read and the header count is set to 0. -/
theorem C10_trivial_run_witness :
    (mainRun 5 1 [recAccepted1]).stats.attempts = 0 ∧
    (mainRun 5 1 [recAccepted1]).stats.count = 0 ∧
    (mainRun 5 1 [recAccepted1]).stats.accepted = 0 ∧
    (mainRun 5 1 [recAccepted1]).stats.errorCount = 0 ∧
    (mainRun 5 1 [recAccepted1]).stats.output = ([] : List WrittenRecord) ∧
    (mainRun 5 1 [recAccepted1]).originalParticlesSet = 0 :=
  C10_trivial_run 5 1 [recAccepted1] (by norm_num)

end PhspCutter
